import Mathlib

/-!
# Verification of the RAG chatbot backend core

Shallow embedding of the core services of the RAG (retrieval-augmented
generation) backend:

* `src/services/qdrant.js` — vector store with in-memory fallback
  (`storeDocument`, `storeDocuments`, `searchSimilar`, `cosineSimilarity`,
  `getCollectionInfo`, `countDocuments`),
* `src/services/rag.js` — retrieval / ingestion orchestration
  (`retrieveRelevantDocuments`, `processAndStoreDocument`,
  `processAndStoreDocuments`),
* the embeddings service (`prepareTextForEmbedding`, `createEmbeddingText`),
* the Redis embedding cache (`getCachedEmbedding`, `cacheEmbedding`).

Modelling conventions:

* JavaScript numbers are idealized as real numbers (`ℝ`); `Math.sqrt` is
  `Real.sqrt`.  This makes the similarity definitions noncomputable, which
  is unavoidable for the exact mathematical statements about cosine
  similarity.
* JavaScript strings are Lean `String`s (code-point based; the sources only
  manipulate BMP text, where JS UTF-16 lengths and code-point lengths agree).
* The mutable singleton services are modelled by explicit state passing
  (`RAGState`); JavaScript exceptions are `Except` values.  A thrown
  exception leaves already-performed mutations in place, so the stateful
  operations return the (possibly partially updated) state alongside the
  `Except` result.
* `Array.prototype.sort` with comparator `(a, b) => b.score - a.score` is a
  stable sort whose output is sorted by non-increasing score; the unique
  such output is produced by `List.insertionSort` with the reflexive
  relation `scoreGe` below.
* The external embedding provider (Jina API) is a parameter
  `provider : Provider`; `Except.error` models a thrown error and
  `Except.ok none` models a fulfilled call that yields no vector
  (`undefined`).
* In fallback mode no vector-store or Redis network traffic occurs, so the
  fallback paths never throw; Redis connectivity failures are outside the
  model (the cache is an in-memory association list).
-/

namespace RAGBackend

/-- A raw document as handed to the ingestion orchestrator
(`{id, title, content, url, publishedAt, source, summary}`). -/
structure Document where
  id : String
  title : String
  content : String
  url : String
  publishedAt : String
  source : String
  summary : String

/-- A document together with its embedding vector (`{...document, embedding}`
in `rag.js`). -/
structure EmbeddedDocument extends Document where
  embedding : List ℝ

/-- The payload stored with each point (built in `storeDocument` /
`storeDocuments`; `createdAt` is `new Date().toISOString()`, passed in
explicitly as `now`). -/
structure Payload where
  title : String
  content : String
  url : String
  publishedAt : String
  source : String
  summary : String
  createdAt : String

/-- An entry of `this.memoryStore` (`{ id, vector, payload }`). -/
structure Point where
  id : String
  vector : List ℝ
  payload : Payload

/-- A search hit as returned by `searchSimilar` to callers. -/
structure SearchResult where
  id : String
  score : ℝ
  title : String
  content : String
  url : String
  publishedAt : String
  source : String
  summary : String

namespace EmbeddingsService

/-- The character class of the JavaScript regex `\s` (also the set trimmed
by `String.prototype.trim`): whitespace and line terminators. -/
def isJsSpace (c : Char) : Bool :=
  let n := c.toNat
  n = 0x20 || n = 0x09 || n = 0x0A || n = 0x0B || n = 0x0C || n = 0x0D ||
  n = 0xA0 || n = 0x1680 || (0x2000 ≤ n && n ≤ 0x200A) || n = 0x2028 ||
  n = 0x2029 || n = 0x202F || n = 0x205F || n = 0x3000 || n = 0xFEFF

/-- JS regex replace of every run of characters satisfying `p` by a space:
the boolean argument records whether the
previous input character was part of a run. -/
def collapseRuns (p : Char → Bool) : Bool → List Char → List Char
  | _, [] => []
  | inRun, c :: rest =>
    if p c then
      if inRun then collapseRuns p true rest
      else ' ' :: collapseRuns p true rest
    else c :: collapseRuns p false rest

/-- JS `String.prototype.trim`: strip leading and trailing `isJsSpace`
characters. -/
def jsTrim (l : List Char) : List Char :=
  ((l.dropWhile isJsSpace).reverse.dropWhile isJsSpace).reverse

/-- The `cleanText` value of `prepareTextForEmbedding`:
collapse whitespace runs, collapse newline runs, then trim. -/
def cleanedText (s : String) : List Char :=
  jsTrim (collapseRuns (fun c => c == '\n') false
    (collapseRuns isJsSpace false s.data))

/-- Model of `EmbeddingsService.prepareTextForEmbedding(text, maxLength = 8192)`.
`none` models a non-string argument (the JS typeof check); the empty
string is falsy in JavaScript, so both return the empty string. -/
def prepareTextForEmbedding (text : Option String) (maxLength : ℕ := 8192) :
    String :=
  match text with
  | none => ""
  | some s =>
    if s = "" then ""
    else if maxLength < (cleanedText s).length then
      ⟨(cleanedText s).take maxLength ++ ('.' :: '.' :: '.' :: [])⟩
    else ⟨cleanedText s⟩

/-- Model of `EmbeddingsService.createEmbeddingText(document)`: assemble
`Title:`/`Summary:`/`Content:` parts (content capped at 6000 characters with
a three-dot marker), join with a blank line, then prepare.  Empty strings are
falsy in JavaScript, hence the `≠ ""` guards. -/
def createEmbeddingText (document : Document) : String :=
  let parts : List String :=
    (if document.title ≠ "" then ["Title: " ++ document.title] else []) ++
    (if document.summary ≠ "" then ["Summary: " ++ document.summary] else []) ++
    (if document.content ≠ "" then
      [("Content: " ++
        (if 6000 < document.content.length then
          document.content.take 6000 ++ "..."
        else document.content))]
    else [])
  prepareTextForEmbedding (some (String.intercalate "\n\n" parts))

end EmbeddingsService

namespace QdrantService

/-- Model of `QdrantService.cosineSimilarity(a, b)`: `0` when the lengths differ or
either vector has zero norm, otherwise `dot / (√‖a‖² · √‖b‖²)`.  (The
JavaScript `!a || !b` null guard has no counterpart: Lean lists are never
null.) -/
noncomputable def cosineSimilarity (a b : List ℝ) : ℝ :=
  if a.length ≠ b.length then 0
  else if (a.map fun x => x * x).sum = 0 ∨ (b.map fun x => x * x).sum = 0
    then 0
  else (List.zipWith (· * ·) a b).sum /
    (Real.sqrt (a.map fun x => x * x).sum *
     Real.sqrt (b.map fun x => x * x).sum)

/-- The point built by `storeDocument` / `storeDocuments` from a document
(the JS fallback of `document.summary` to the empty string is the identity
on strings, since the only falsy string is the empty one). -/
def mkPoint (now : String) (d : EmbeddedDocument) : Point :=
  { id := d.id
    vector := d.embedding
    payload :=
      { title := d.title
        content := d.content
        url := d.url
        publishedAt := d.publishedAt
        source := d.source
        summary := d.summary
        createdAt := now } }

/-- Fallback branch of `QdrantService.storeDocument`: replace any existing
point with the same id, then push. -/
def storeDocument (now : String) (d : EmbeddedDocument)
    (memoryStore : List Point) : List Point :=
  let point := mkPoint now d
  memoryStore.filter (fun p => p.id != point.id) ++ [point]

/-- Fallback branch of `QdrantService.storeDocuments`: remove every stored
point whose id occurs in the batch, then push all batch points. -/
def storeDocuments (now : String) (docs : List EmbeddedDocument)
    (memoryStore : List Point) : List Point :=
  let points := docs.map (mkPoint now)
  let ids := points.map Point.id
  memoryStore.filter (fun p => !(ids.contains p.id)) ++ points

/-- Intermediate record of the fallback search pipeline
(`{ id, score, payload }`). -/
structure Scored where
  id : String
  score : ℝ
  payload : Payload

/-- The final `.map` of `searchSimilar`, flattening payload into the result
record. -/
def toSearchResult (r : Scored) : SearchResult :=
  { id := r.id
    score := r.score
    title := r.payload.title
    content := r.payload.content
    url := r.payload.url
    publishedAt := r.payload.publishedAt
    source := r.payload.source
    summary := r.payload.summary }

/-- First stage of the fallback search: score every stored point. -/
noncomputable def scoredPoints (queryEmbedding : List ℝ)
    (memoryStore : List Point) : List Scored :=
  memoryStore.map fun p =>
    { id := p.id
      score := cosineSimilarity queryEmbedding p.vector
      payload := p.payload }

/-- Second stage: `.filter(r => r.score >= scoreThreshold)`. -/
noncomputable def scoredFiltered (queryEmbedding : List ℝ)
    (scoreThreshold : ℝ) (memoryStore : List Point) : List Scored :=
  (scoredPoints queryEmbedding memoryStore).filter
    fun r => decide (scoreThreshold ≤ r.score)

/-- The order realized by the comparator `(a, b) => b.score - a.score`:
`a` may come before `b` iff `b.score ≤ a.score`. -/
def scoreGe (a b : Scored) : Prop := b.score ≤ a.score

noncomputable instance : DecidableRel scoreGe := fun a b =>
  inferInstanceAs (Decidable (b.score ≤ a.score))

instance : IsTotal Scored scoreGe := ⟨fun a b => le_total b.score a.score⟩

instance : IsTrans Scored scoreGe :=
  ⟨fun _ _ _ h₁ h₂ => le_trans h₂ h₁⟩

/-- Fallback branch of `QdrantService.searchSimilar`: score, filter by
threshold, stable-sort descending by score, truncate to `limit`, flatten.
`.sort((a, b) => b.score - a.score)` is a stable descending sort, realized
by `List.insertionSort scoreGe`. -/
noncomputable def searchSimilar (queryEmbedding : List ℝ) (limit : ℕ)
    (scoreThreshold : ℝ) (memoryStore : List Point) : List SearchResult :=
  (((scoredFiltered queryEmbedding scoreThreshold memoryStore).insertionSort
      scoreGe).take limit).map toSearchResult

/-- The collection statistics record returned by `getCollectionInfo`.
In the networked backend `points_count` may be absent (`undefined`). -/
structure CollectionInfo where
  status : String
  points_count : Option ℕ
  indexed_vectors_count : Option ℕ
  vectors_count : Option ℕ

/-- The two backend modes of the service: the in-memory fallback with its
store, or the networked client, abstracted by the response its
`getCollection` call would produce. -/
inductive StoreMode where
  | fallback (memoryStore : List Point)
  | networked (resp : Except String CollectionInfo)

/-- Model of `QdrantService.getCollectionInfo()`: placeholder statistics in fallback
mode, the backend response (or its error) otherwise. -/
def getCollectionInfo : StoreMode → Except String CollectionInfo
  | .fallback ms =>
    .ok { status := "yellow"
          points_count := some ms.length
          indexed_vectors_count := some ms.length
          vectors_count := some ms.length }
  | .networked resp => resp

/-- Model of `QdrantService.countDocuments()`: `info.points_count || 0`, with every
error caught and turned into `0`. -/
def countDocuments (m : StoreMode) : ℕ :=
  match getCollectionInfo m with
  | .ok info => info.points_count.getD 0
  | .error _ => 0

end QdrantService

namespace RedisService

/-- Model of `RedisService.getCachedEmbedding(docId)`: read the cached vector,
`none` when absent.  The cache is an association list where the most recent
write for a key comes first. -/
def getCachedEmbedding (cache : List (String × List ℝ)) (docId : String) :
    Option (List ℝ) :=
  cache.lookup docId

/-- Model of `RedisService.cacheEmbedding(docId, embedding)`: overwrite the entry for
`docId` (`setEx` semantics; the 7-day TTL is not modelled). -/
def cacheEmbedding (cache : List (String × List ℝ)) (docId : String)
    (embedding : List ℝ) : List (String × List ℝ) :=
  (docId, embedding) :: cache

end RedisService

/-- The mutable state of the service singletons, plus instrumentation
counters: `providerCalls` counts `embeddingsService.generateEmbedding`
invocations, `storeCalls` counts vector-store upsert calls
(`storeDocument` / `storeDocuments`). -/
structure RAGState where
  cache : List (String × List ℝ)
  memoryStore : List Point
  providerCalls : ℕ
  storeCalls : ℕ

/-- The external embedding provider: for a text, either a thrown error
(`Except.error`), a vector, or a fulfilled call yielding no vector
(`Except.ok none`, JavaScript `undefined`). -/
def Provider := String → Except String (Option (List ℝ))

namespace RAGService

/-- Model of `RAGService.retrieveRelevantDocuments(query, topK, scoreThreshold)`:
embed the query (provider errors are re-thrown unchanged by the
`catch { throw error }` block), reject a missing vector, then search. -/
noncomputable def retrieveRelevantDocuments (provider : Provider)
    (query : String) (topK : ℕ) (scoreThreshold : ℝ) (st : RAGState) :
    Except String (List SearchResult) × RAGState :=
  let st₁ := { st with providerCalls := st.providerCalls + 1 }
  match provider query with
  | .error e => (.error e, st₁)
  | .ok none => (.error "Failed to generate query embedding", st₁)
  | .ok (some v) =>
    (.ok (QdrantService.searchSimilar v topK scoreThreshold st₁.memoryStore),
      st₁)

/-- Model of `RAGService.processAndStoreDocument(document)` in fallback mode: check
the cache by document id; on a hit reuse the vector, on a miss call the
provider, write through to the cache, then upsert the point.  A provider
`undefined` result makes the subsequent `cacheEmbedding` call throw (Redis
rejects a non-string value), modelled by the fixed error below. -/
def processAndStoreDocument (provider : Provider) (now : String)
    (document : Document) (st : RAGState) : Except String Unit × RAGState :=
  match RedisService.getCachedEmbedding st.cache document.id with
  | some embedding =>
    (.ok (),
      { st with
        memoryStore :=
          QdrantService.storeDocument now ⟨document, embedding⟩ st.memoryStore
        storeCalls := st.storeCalls + 1 })
  | none =>
    let st₁ := { st with providerCalls := st.providerCalls + 1 }
    match provider (EmbeddingsService.createEmbeddingText document) with
    | .error e => (.error e, st₁)
    | .ok none => (.error "Error caching embedding", st₁)
    | .ok (some embedding) =>
      let st₂ :=
        { st₁ with
          cache := RedisService.cacheEmbedding st₁.cache document.id embedding }
      (.ok (),
        { st₂ with
          memoryStore :=
            QdrantService.storeDocument now ⟨document, embedding⟩
              st₂.memoryStore
          storeCalls := st₂.storeCalls + 1 })

/-- The per-document loop of `RAGService.processAndStoreDocuments`: embed
each document (cache hit, or provider call with write-through), collecting
the successes in order; a failed document is caught, logged and skipped. -/
def embedLoop (provider : Provider) (documents : List Document)
    (acc : List EmbeddedDocument) (st : RAGState) :
    List EmbeddedDocument × RAGState :=
  match documents with
  | [] => (acc, st)
  | document :: rest =>
    match RedisService.getCachedEmbedding st.cache document.id with
    | some embedding =>
      embedLoop provider rest (acc ++ [⟨document, embedding⟩]) st
    | none =>
      let st₁ := { st with providerCalls := st.providerCalls + 1 }
      match provider (EmbeddingsService.createEmbeddingText document) with
      | .error _ => embedLoop provider rest acc st₁
      | .ok none => embedLoop provider rest acc st₁
      | .ok (some embedding) =>
        let st₂ :=
          { st₁ with
            cache :=
              RedisService.cacheEmbedding st₁.cache document.id embedding }
        embedLoop provider rest (acc ++ [⟨document, embedding⟩]) st₂

/-- Model of `RAGService.processAndStoreDocuments(documents)` in fallback mode:
embed all documents (best effort), then store the successes in a single
batch upsert (skipped when there are none), returning the success count. -/
def processAndStoreDocuments (provider : Provider) (now : String)
    (documents : List Document) (st : RAGState) :
    Except String ℕ × RAGState :=
  let r := embedLoop provider documents [] st
  if r.1.isEmpty then (.ok r.1.length, r.2)
  else
    (.ok r.1.length,
      { r.2 with
        memoryStore := QdrantService.storeDocuments now r.1 r.2.memoryStore
        storeCalls := r.2.storeCalls + 1 })

end RAGService

/-! ## Helper lemmas -/

/-- Filtering the upserted store for the upserted id yields exactly the new
point. -/
theorem storeDocument_filter_id (now : String) (d : EmbeddedDocument)
    (store : List Point) :
    (QdrantService.storeDocument now d store).filter
      (fun p => p.id == d.id) = [QdrantService.mkPoint now d] := by
  unfold QdrantService.storeDocument
  rw [List.filter_append, List.filter_filter]
  have h₁ : ∀ p : Point,
      ((p.id == d.id) && (p.id != (QdrantService.mkPoint now d).id)) = false := by
    intro p
    by_cases h : p.id = d.id <;> simp [h, QdrantService.mkPoint]
  rw [List.filter_congr (fun p _ => h₁ p), List.filter_false]
  simp [QdrantService.mkPoint]

/-- Unfolding `collapseRuns` on a run character. -/
theorem collapseRuns_cons_pos {p : Char → Bool} {c : Char} (hc : p c = true)
    (b : Bool) (rest : List Char) :
    EmbeddingsService.collapseRuns p b (c :: rest) =
      if b then EmbeddingsService.collapseRuns p true rest
      else ' ' :: EmbeddingsService.collapseRuns p true rest := by
  simp [EmbeddingsService.collapseRuns, hc]

/-- Unfolding `collapseRuns` on a non-run character. -/
theorem collapseRuns_cons_neg {p : Char → Bool} {c : Char} (hc : p c = false)
    (b : Bool) (rest : List Char) :
    EmbeddingsService.collapseRuns p b (c :: rest) =
      c :: EmbeddingsService.collapseRuns p false rest := by
  simp [EmbeddingsService.collapseRuns, hc]

/-- Every character of a collapsed list is either the replacement space or a
non-run character of the input. -/
theorem collapseRuns_mem (p : Char → Bool) (l : List Char) :
    ∀ b c, c ∈ EmbeddingsService.collapseRuns p b l →
      c = ' ' ∨ (c ∈ l ∧ p c = false) := by
  induction l with
  | nil =>
    intro b c h
    simp [EmbeddingsService.collapseRuns] at h
  | cons d rest ih =>
    intro b c h
    cases hd : p d with
    | true =>
      rw [collapseRuns_cons_pos hd] at h
      cases b with
      | true =>
        rw [if_pos rfl] at h
        rcases ih true c h with h' | ⟨hm, hp⟩
        · exact Or.inl h'
        · exact Or.inr ⟨List.mem_cons_of_mem d hm, hp⟩
      | false =>
        rw [if_neg (by simp)] at h
        rcases List.mem_cons.mp h with rfl | h'
        · exact Or.inl rfl
        · rcases ih true c h' with h'' | ⟨hm, hp⟩
          · exact Or.inl h''
          · exact Or.inr ⟨List.mem_cons_of_mem d hm, hp⟩
    | false =>
      rw [collapseRuns_cons_neg hd] at h
      rcases List.mem_cons.mp h with rfl | h'
      · exact Or.inr ⟨List.mem_cons_self _ rest, hd⟩
      · rcases ih false c h' with h'' | ⟨hm, hp⟩
        · exact Or.inl h''
        · exact Or.inr ⟨List.mem_cons_of_mem d hm, hp⟩

/-- Collapsing is the identity on a list without run characters. -/
theorem collapseRuns_id (p : Char → Bool) (l : List Char)
    (h : ∀ c ∈ l, p c = false) : ∀ b, EmbeddingsService.collapseRuns p b l = l := by
  induction l with
  | nil => intro b; rfl
  | cons d rest ih =>
    intro b
    rw [collapseRuns_cons_neg (h d (List.mem_cons_self d rest)) b rest,
      ih fun c hc => h c (List.mem_cons_of_mem d hc)]

/-- A collapse started inside a run never begins with a run character. -/
theorem collapseRuns_head_not (p : Char → Bool) (l : List Char) :
    ∀ c, (EmbeddingsService.collapseRuns p true l).head? = some c →
      p c = false := by
  induction l with
  | nil =>
    intro c h
    simp [EmbeddingsService.collapseRuns] at h
  | cons d rest ih =>
    intro c h
    cases hd : p d with
    | true =>
      rw [collapseRuns_cons_pos hd, if_pos rfl] at h
      exact ih c h
    | false =>
      rw [collapseRuns_cons_neg hd] at h
      simp only [List.head?_cons, Option.some_inj] at h
      exact h ▸ hd

/-- No two adjacent characters of a collapsed list are both run
characters. -/
theorem collapseRuns_chain (p : Char → Bool) (l : List Char) :
    ∀ b, List.Chain' (fun x y => p x = false ∨ p y = false)
      (EmbeddingsService.collapseRuns p b l) := by
  induction l with
  | nil =>
    intro b
    simp [EmbeddingsService.collapseRuns]
  | cons d rest ih =>
    intro b
    cases hd : p d with
    | true =>
      rw [collapseRuns_cons_pos hd]
      cases b with
      | true =>
        rw [if_pos rfl]
        exact ih true
      | false =>
        rw [if_neg (by simp)]
        rw [List.chain'_cons']
        exact ⟨fun y hy => Or.inr (collapseRuns_head_not p rest y hy), ih true⟩
    | false =>
      rw [collapseRuns_cons_neg hd]
      rw [List.chain'_cons']
      exact ⟨fun y _ => Or.inl hd, ih false⟩

/-- The trim `jsTrim` only removes characters. -/
theorem jsTrim_subset {l : List Char} {c : Char}
    (h : c ∈ EmbeddingsService.jsTrim l) : c ∈ l := by
  unfold EmbeddingsService.jsTrim at h
  rw [List.mem_reverse] at h
  have h₁ := (List.dropWhile_sublist _).subset h
  rw [List.mem_reverse] at h₁
  exact (List.dropWhile_sublist _).subset h₁

/-- The trim `jsTrim` preserves `Chain'` for a symmetric relation. -/
theorem jsTrim_chain {R : Char → Char → Prop} (hR : ∀ x y, R x y → R y x)
    {l : List Char} (h : List.Chain' R l) :
    List.Chain' R (EmbeddingsService.jsTrim l) := by
  unfold EmbeddingsService.jsTrim
  have h₁ : List.Chain' R (l.dropWhile EmbeddingsService.isJsSpace) :=
    List.Chain'.suffix h (List.dropWhile_suffix _)
  have h₂ : List.Chain' R (l.dropWhile EmbeddingsService.isJsSpace).reverse :=
    List.chain'_reverse.mpr (h₁.imp fun x y hxy => hR x y hxy)
  have h₃ : List.Chain' R
      ((l.dropWhile EmbeddingsService.isJsSpace).reverse.dropWhile
        EmbeddingsService.isJsSpace) :=
    List.Chain'.suffix h₂ (List.dropWhile_suffix _)
  exact List.chain'_reverse.mpr (h₃.imp fun x y hxy => hR x y hxy)

/-- Every `isJsSpace` character surviving in `cleanedText` is the
replacement space `' '`. -/
theorem cleanedText_space {s : String} {c : Char}
    (hc : c ∈ EmbeddingsService.cleanedText s)
    (hs : EmbeddingsService.isJsSpace c = true) : c = ' ' := by
  unfold EmbeddingsService.cleanedText at hc
  have h₁ := jsTrim_subset hc
  rcases collapseRuns_mem _ _ _ _ h₁ with h | ⟨hm, -⟩
  · exact h
  · rcases collapseRuns_mem _ _ _ _ hm with h | ⟨-, hp⟩
    · exact h
    · rw [hs] at hp
      cases hp

/-- The second collapse (`/\n+/g`) of `cleanedText` is the identity: the
first collapse has already removed every newline. -/
theorem cleanedText_eq_single_collapse (s : String) :
    EmbeddingsService.cleanedText s =
      EmbeddingsService.jsTrim
        (EmbeddingsService.collapseRuns EmbeddingsService.isJsSpace false
          s.data) := by
  unfold EmbeddingsService.cleanedText
  rw [collapseRuns_id _ _ ?h]
  intro c hc
  rcases collapseRuns_mem _ _ _ _ hc with rfl | ⟨-, hp⟩
  · decide
  · by_cases h : c = '\n'
    · subst h
      exact absurd hp (by decide)
    · simp [h]

/-- No two adjacent characters of `cleanedText` are both whitespace. -/
theorem cleanedText_chain (s : String) :
    List.Chain' (fun x y => EmbeddingsService.isJsSpace x = false ∨
      EmbeddingsService.isJsSpace y = false)
      (EmbeddingsService.cleanedText s) := by
  rw [cleanedText_eq_single_collapse]
  exact jsTrim_chain (fun x y hxy => hxy.symm)
    (collapseRuns_chain EmbeddingsService.isJsSpace s.data false)

/-- The loop `embedLoop` only accumulates: running it with accumulator `acc` prepends
`acc` to the successes of the run started from the empty accumulator. -/
theorem embedLoop_acc (provider : Provider) (documents : List Document)
    (acc : List EmbeddedDocument) (st : RAGState) :
    RAGService.embedLoop provider documents acc st =
      (acc ++ (RAGService.embedLoop provider documents [] st).1,
       (RAGService.embedLoop provider documents [] st).2) := by
  induction documents generalizing acc st with
  | nil => simp [RAGService.embedLoop]
  | cons d rest ih =>
    cases hc : RedisService.getCachedEmbedding st.cache d.id with
    | some e =>
      simp only [RAGService.embedLoop, hc]
      rw [ih (acc ++ [EmbeddedDocument.mk d e]) st,
        ih ([] ++ [EmbeddedDocument.mk d e]) st]
      simp [List.append_assoc]
    | none =>
      cases hp : provider (EmbeddingsService.createEmbeddingText d) with
      | error e' =>
        simp only [RAGService.embedLoop, hc, hp]
        exact ih acc _
      | ok o =>
        cases o with
        | none =>
          simp only [RAGService.embedLoop, hc, hp]
          exact ih acc _
        | some e =>
          simp only [RAGService.embedLoop, hc, hp]
          rw [ih (acc ++ [EmbeddedDocument.mk d e]) _,
            ih ([] ++ [EmbeddedDocument.mk d e]) _]
          simp [List.append_assoc]

/-- The embedding loop of the batch ingestion never touches the vector
store: it performs no upsert and changes no stored point. -/
theorem embedLoop_frame (provider : Provider) (documents : List Document)
    (acc : List EmbeddedDocument) (st : RAGState) :
    (RAGService.embedLoop provider documents acc st).2.memoryStore =
      st.memoryStore ∧
    (RAGService.embedLoop provider documents acc st).2.storeCalls =
      st.storeCalls := by
  induction documents generalizing acc st with
  | nil => exact ⟨rfl, rfl⟩
  | cons d rest ih =>
    cases hc : RedisService.getCachedEmbedding st.cache d.id with
    | some e =>
      simp only [RAGService.embedLoop, hc]
      exact ih _ _
    | none =>
      cases hp : provider (EmbeddingsService.createEmbeddingText d) with
      | error e' =>
        simp only [RAGService.embedLoop, hc, hp]
        exact ih _ _
      | ok o =>
        cases o with
        | none =>
          simp only [RAGService.embedLoop, hc, hp]
          exact ih _ _
        | some e =>
          simp only [RAGService.embedLoop, hc, hp]
          exact ih _ _

/-- The successes of the embedding loop are a subsequence of the input
batch: every failing document is excluded, every non-failing document is
kept, in order. -/
theorem embedLoop_sublist (provider : Provider) (documents : List Document)
    (st : RAGState) :
    List.Sublist
      ((RAGService.embedLoop provider documents [] st).1.map
        EmbeddedDocument.toDocument) documents := by
  induction documents generalizing st with
  | nil => simp [RAGService.embedLoop]
  | cons d rest ih =>
    cases hc : RedisService.getCachedEmbedding st.cache d.id with
    | some e =>
      simp only [RAGService.embedLoop, hc]
      rw [embedLoop_acc]
      exact (ih st).cons₂ d
    | none =>
      cases hp : provider (EmbeddingsService.createEmbeddingText d) with
      | error e' =>
        simp only [RAGService.embedLoop, hc, hp]
        exact (ih _).cons d
      | ok o =>
        cases o with
        | none =>
          simp only [RAGService.embedLoop, hc, hp]
          exact (ih _).cons d
        | some e =>
          simp only [RAGService.embedLoop, hc, hp]
          rw [embedLoop_acc]
          exact (ih _).cons₂ d

/-! ## Claims -/

/-- Claim C1: Every fallback search result has score at least the threshold,
at most `limit` results are returned, scores are non-increasing across the
returned sequence, and ties are broken by insertion order of the stored
points: for every score value `s`, the results with score `s` are an
in-order prefix of the threshold-filtered scored points with score `s`. -/
theorem searchSimilar_spec (q : List ℝ) (k : ℕ) (t : ℝ) (store : List Point) :
    (∀ r ∈ QdrantService.searchSimilar q k t store, t ≤ r.score) ∧
    (QdrantService.searchSimilar q k t store).length ≤ k ∧
    List.Pairwise (fun a b : SearchResult => b.score ≤ a.score)
      (QdrantService.searchSimilar q k t store) ∧
    (∀ s : ℝ,
      (QdrantService.searchSimilar q k t store).filter
          (fun r => decide (r.score = s)) <+:
        ((QdrantService.scoredFiltered q t store).map
            QdrantService.toSearchResult).filter
          (fun r => decide (r.score = s))) := by
  refine ⟨?_, ?_, ?_, ?_⟩
  · intro r hr
    unfold QdrantService.searchSimilar at hr
    obtain ⟨x, hx, rfl⟩ := List.mem_map.mp hr
    have hxS : x ∈ (QdrantService.scoredFiltered q t store).insertionSort
        QdrantService.scoreGe :=
      List.take_subset _ _ hx
    have hxF : x ∈ QdrantService.scoredFiltered q t store :=
      (List.perm_insertionSort QdrantService.scoreGe _).subset hxS
    unfold QdrantService.scoredFiltered at hxF
    exact of_decide_eq_true (List.mem_filter.mp hxF).2
  · unfold QdrantService.searchSimilar
    rw [List.length_map, List.length_take]
    exact min_le_left _ _
  · unfold QdrantService.searchSimilar
    refine List.pairwise_map.mpr ?_
    have hsort := List.sorted_insertionSort QdrantService.scoreGe
      (QdrantService.scoredFiltered q t store)
    exact List.Pairwise.sublist (List.take_sublist _ _) hsort
  · intro s
    have hperm :
        List.Perm
          (((QdrantService.scoredFiltered q t store).insertionSort
            QdrantService.scoreGe).filter fun x => decide (x.score = s))
          ((QdrantService.scoredFiltered q t store).filter
            fun x => decide (x.score = s)) :=
      (List.perm_insertionSort QdrantService.scoreGe _).filter _
    have hc : List.Pairwise QdrantService.scoreGe
        ((QdrantService.scoredFiltered q t store).filter
          fun x => decide (x.score = s)) := by
      refine List.pairwise_of_forall_mem_list ?_
      intro a ha b hb
      have ha' : a.score = s := of_decide_eq_true (List.mem_filter.mp ha).2
      have hb' : b.score = s := of_decide_eq_true (List.mem_filter.mp hb).2
      unfold QdrantService.scoreGe
      rw [ha', hb']
    have hsubS : List.Sublist
        ((QdrantService.scoredFiltered q t store).filter
          fun x => decide (x.score = s))
        ((QdrantService.scoredFiltered q t store).insertionSort
          QdrantService.scoreGe) :=
      List.sublist_insertionSort hc (List.filter_sublist _)
    have hsub2 := hsubS.filter fun x => decide (x.score = s)
    rw [List.filter_eq_self.mpr fun a ha => (List.mem_filter.mp ha).2]
      at hsub2
    have heq :
        ((QdrantService.scoredFiltered q t store).filter
          fun x => decide (x.score = s)) =
        (((QdrantService.scoredFiltered q t store).insertionSort
          QdrantService.scoreGe).filter fun x => decide (x.score = s)) :=
      hsub2.eq_of_length hperm.length_eq.symm
    have hpre :
        ((((QdrantService.scoredFiltered q t store).insertionSort
            QdrantService.scoreGe).take k).filter
          fun x => decide (x.score = s)) <+:
        (((QdrantService.scoredFiltered q t store).insertionSort
          QdrantService.scoreGe).filter fun x => decide (x.score = s)) :=
      ⟨(((QdrantService.scoredFiltered q t store).insertionSort
          QdrantService.scoreGe).drop k).filter fun x => decide (x.score = s),
        by rw [← List.filter_append, List.take_append_drop]⟩
    rw [← heq] at hpre
    unfold QdrantService.searchSimilar
    rw [List.filter_map, List.filter_map]
    exact List.IsPrefix.map QdrantService.toSearchResult hpre

/-- Concrete evaluation of the whole fallback search pipeline: a store with
an exactly-matching point and an orthogonal point, queried with threshold
`0`, returns both, best first, with scores `1` and `0`. -/
theorem searchSimilar_example :
    QdrantService.searchSimilar [(1 : ℝ), 0] 5 0
      [⟨"p1", [(1 : ℝ), 0], ⟨"t1", "c1", "u1", "d1", "s1", "m1", "now"⟩⟩,
       ⟨"p2", [(0 : ℝ), 1], ⟨"t2", "c2", "u2", "d2", "s2", "m2", "now"⟩⟩] =
      [⟨"p1", 1, "t1", "c1", "u1", "d1", "s1", "m1"⟩,
       ⟨"p2", 0, "t2", "c2", "u2", "d2", "s2", "m2"⟩] := by
  have h1 : QdrantService.cosineSimilarity [(1 : ℝ), 0] [(1 : ℝ), 0] = 1 := by
    simp [QdrantService.cosineSimilarity, Real.sqrt_one]
  have h2 : QdrantService.cosineSimilarity [(1 : ℝ), 0] [(0 : ℝ), 1] = 0 := by
    simp [QdrantService.cosineSimilarity]
  simp only [QdrantService.searchSimilar, QdrantService.scoredFiltered,
    QdrantService.scoredPoints, List.map_cons, List.map_nil, h1, h2]
  norm_num [List.filter, List.insertionSort, List.orderedInsert,
    QdrantService.scoreGe, QdrantService.toSearchResult]

/-- Witness for C1 at a concrete search call. -/
theorem searchSimilar_spec_witness :
    (∀ r ∈ QdrantService.searchSimilar [(1 : ℝ)] 1 0 [], (0 : ℝ) ≤ r.score) ∧
    (QdrantService.searchSimilar [(1 : ℝ)] 1 0 []).length ≤ 1 :=
  ⟨(searchSimilar_spec [(1 : ℝ)] 1 0 []).1,
   (searchSimilar_spec [(1 : ℝ)] 1 0 []).2.1⟩

/-- Claim C2: For every pair of vectors `a`, `b`: `cosineSimilarity a a = 1`
for any non-zero `a`; the similarity is `0` for orthogonal vectors
(`dot = 0`); it is `0` (and no division-by-zero error occurs — the function
is total) when either vector has zero norm; and it is `0` when the vectors
have different dimensions. -/
theorem cosineSimilarity_spec (a b : List ℝ) :
    ((∃ x ∈ a, x ≠ 0) → QdrantService.cosineSimilarity a a = 1) ∧
    ((List.zipWith (· * ·) a b).sum = 0 →
      QdrantService.cosineSimilarity a b = 0) ∧
    ((∀ x ∈ a, x = 0) →
      QdrantService.cosineSimilarity a b = 0 ∧
      QdrantService.cosineSimilarity b a = 0) ∧
    (a.length ≠ b.length → QdrantService.cosineSimilarity a b = 0) := by
  have hnn : ∀ x ∈ a.map fun x => x * x, (0 : ℝ) ≤ x := by
    intro x hx
    obtain ⟨y, -, rfl⟩ := List.mem_map.mp hx
    exact mul_self_nonneg y
  refine ⟨?_, ?_, ?_, ?_⟩
  · rintro ⟨x, hxa, hx⟩
    have hna : (0 : ℝ) < (a.map fun x => x * x).sum := by
      have hmem : x * x ∈ a.map fun x => x * x := List.mem_map_of_mem _ hxa
      have := List.single_le_sum hnn _ hmem
      have hxx : (0 : ℝ) < x * x := mul_self_pos.mpr hx
      linarith
    unfold QdrantService.cosineSimilarity
    rw [if_neg (by simp)]
    rw [if_neg (by push_neg; exact ⟨ne_of_gt hna, ne_of_gt hna⟩)]
    rw [List.zipWith_same, Real.mul_self_sqrt hna.le]
    exact div_self (ne_of_gt hna)
  · intro hdot
    unfold QdrantService.cosineSimilarity
    split
    · rfl
    · split
      · rfl
      · rw [hdot]
        exact zero_div _
  · intro hzero
    have hna : (a.map fun x => x * x).sum = 0 :=
      List.sum_eq_zero fun x hx => by
        obtain ⟨y, hy, rfl⟩ := List.mem_map.mp hx
        rw [hzero y hy, mul_zero]
    constructor
    · unfold QdrantService.cosineSimilarity
      split
      · rfl
      · rw [if_pos (Or.inl hna)]
    · unfold QdrantService.cosineSimilarity
      split
      · rfl
      · rw [if_pos (Or.inr hna)]
  · intro h
    unfold QdrantService.cosineSimilarity
    rw [if_pos h]

/-- Witness for C2 at concrete inputs: identical non-zero vectors, an
orthogonal pair, a zero-norm vector, and a dimension mismatch. -/
theorem cosineSimilarity_spec_witness :
    QdrantService.cosineSimilarity [(1 : ℝ), 0] [(1 : ℝ), 0] = 1 ∧
    QdrantService.cosineSimilarity [(1 : ℝ), 0] [(0 : ℝ), 1] = 0 ∧
    QdrantService.cosineSimilarity [(0 : ℝ), 0] [(5 : ℝ), 7] = 0 ∧
    QdrantService.cosineSimilarity [(1 : ℝ)] [(1 : ℝ), 2] = 0 :=
  ⟨(cosineSimilarity_spec [1, 0] [1, 0]).1 ⟨1, by norm_num⟩,
   (cosineSimilarity_spec [1, 0] [0, 1]).2.1 (by norm_num),
   ((cosineSimilarity_spec [0, 0] [5, 7]).2.2.1 (by norm_num)).1,
   (cosineSimilarity_spec [1] [1, 2]).2.2.2 (by norm_num)⟩

/-- Claim C3: Upserting `(id, v1)` and then `(id, v2)` via `storeDocument` in
fallback mode leaves exactly one point with that id, and that point carries
the second vector and the second payload. -/
theorem storeDocument_upsert (now₁ now₂ : String) (d₁ d₂ : EmbeddedDocument)
    (store : List Point) (_hid : d₁.id = d₂.id) :
    (QdrantService.storeDocument now₂ d₂
        (QdrantService.storeDocument now₁ d₁ store)).filter
      (fun p => p.id == d₂.id) = [QdrantService.mkPoint now₂ d₂] ∧
    (QdrantService.mkPoint now₂ d₂).vector = d₂.embedding ∧
    (QdrantService.mkPoint now₂ d₂).payload.title = d₂.title :=
  ⟨storeDocument_filter_id now₂ d₂ _, rfl, rfl⟩

/-- Witness for C3: two concrete documents with the same id and different
vectors, on the empty store. -/
theorem storeDocument_upsert_witness :
    (QdrantService.storeDocument "t2"
        ⟨⟨"a", "second", "c2", "u2", "p2", "s2", "m2"⟩, [(2 : ℝ)]⟩
        (QdrantService.storeDocument "t1"
          ⟨⟨"a", "first", "c1", "u1", "p1", "s1", "m1"⟩, [(1 : ℝ)]⟩
          [])).filter (fun p => p.id == "a") =
      [QdrantService.mkPoint "t2"
        ⟨⟨"a", "second", "c2", "u2", "p2", "s2", "m2"⟩, [(2 : ℝ)]⟩] :=
  (storeDocument_upsert "t1" "t2"
    ⟨⟨"a", "first", "c1", "u1", "p1", "s1", "m1"⟩, [(1 : ℝ)]⟩
    ⟨⟨"a", "second", "c2", "u2", "p2", "s2", "m2"⟩, [(2 : ℝ)]⟩
    [] rfl).1

/-- Claim C4, counterexample: The claim asserts that after any batch upsert —
including a batch containing the same id twice — every id appears at most
once in the in-memory point list.  The code removes stale entries but pushes
every batch point, so a batch containing id `"a"` twice leaves two points
with id `"a"`. -/
theorem storeDocuments_intra_batch_duplicate :
    ((QdrantService.storeDocuments "now"
        [⟨⟨"a", "t1", "c1", "u", "p", "s", ""⟩, [(1 : ℝ)]⟩,
         ⟨⟨"a", "t2", "c2", "u", "p", "s", ""⟩, [(0 : ℝ)]⟩]
        []).map Point.id) = ["a", "a"] := rfl

/-- Claim C4, amended: After a `storeDocuments` batch upsert whose batch
contains each id at most once — including ids already present in the
store — every id appears at most once in the in-memory point list
(remove-then-insert for ids in the batch), provided it did before. -/
theorem storeDocuments_nodup (now : String) (docs : List EmbeddedDocument)
    (store : List Point) (h₁ : (docs.map fun d => d.id).Nodup)
    (h₂ : (store.map Point.id).Nodup) :
    ((QdrantService.storeDocuments now docs store).map Point.id).Nodup := by
  unfold QdrantService.storeDocuments
  rw [List.map_append]
  refine List.Nodup.append ?_ ?_ ?_
  · exact h₂.sublist ((List.filter_sublist store).map Point.id)
  · rw [List.map_map]
    exact h₁
  · intro x hx hx'
    rw [List.map_map] at hx'
    obtain ⟨p, hp, rfl⟩ := List.mem_map.mp hx
    obtain ⟨hps, hpf⟩ := List.mem_filter.mp hp
    obtain ⟨d, hd, hdp⟩ := List.mem_map.mp hx'
    have : p.id ∈ (docs.map (QdrantService.mkPoint now)).map Point.id := by
      rw [List.map_map]
      exact List.mem_map.mpr ⟨d, hd, hdp⟩
    simp only [List.contains, List.elem_eq_mem, Bool.not_eq_true',
      decide_eq_false_iff_not] at hpf
    exact hpf this

/-- Witness for the amended C4: a duplicate-free two-document batch over the
empty store. -/
theorem storeDocuments_nodup_witness :
    ((QdrantService.storeDocuments "now"
        [⟨⟨"a", "t1", "c1", "u", "p", "s", ""⟩, [(1 : ℝ)]⟩,
         ⟨⟨"b", "t2", "c2", "u", "p", "s", ""⟩, [(0 : ℝ)]⟩]
        []).map Point.id).Nodup :=
  storeDocuments_nodup "now"
    [⟨⟨"a", "t1", "c1", "u", "p", "s", ""⟩, [(1 : ℝ)]⟩,
     ⟨⟨"b", "t2", "c2", "u", "p", "s", ""⟩, [(0 : ℝ)]⟩]
    [] (by decide) (by decide)

/-- Claim C9, amended: For every input string, `prepareTextForEmbedding`
collapses runs of whitespace and newlines (no surviving whitespace
character other than `' '`, and no two adjacent whitespace characters) and
hard-truncates at the configured maximum character length (default `8192`)
with the truncation marker `'...'` appended; for non-string or empty input
it returns the empty string.  (The original claim also asserted that
non-printable characters are stripped; they are not — see the
counterexample.) -/
theorem prepareTextForEmbedding_spec (s : String) (n : ℕ) :
    EmbeddingsService.prepareTextForEmbedding none n = "" ∧
    EmbeddingsService.prepareTextForEmbedding (some "") n = "" ∧
    (EmbeddingsService.prepareTextForEmbedding (some s) n).length ≤ n + 3 ∧
    (∀ c ∈ (EmbeddingsService.prepareTextForEmbedding (some s) n).data,
      EmbeddingsService.isJsSpace c = true → c = ' ') ∧
    List.Chain' (fun x y => EmbeddingsService.isJsSpace x = false ∨
      EmbeddingsService.isJsSpace y = false)
      (EmbeddingsService.prepareTextForEmbedding (some s) n).data ∧
    (n < (EmbeddingsService.cleanedText s).length →
      EmbeddingsService.prepareTextForEmbedding (some s) n =
        ⟨(EmbeddingsService.cleanedText s).take n ++
          ('.' :: '.' :: '.' :: [])⟩) := by
  refine ⟨rfl, rfl, ?_, ?_, ?_, ?_⟩
  · by_cases hs : s = ""
    · subst hs
      simp [EmbeddingsService.prepareTextForEmbedding]
    · simp only [EmbeddingsService.prepareTextForEmbedding]
      rw [if_neg hs]
      by_cases ht : n < (EmbeddingsService.cleanedText s).length
      · rw [if_pos ht]
        show ((EmbeddingsService.cleanedText s).take n ++ _).length ≤ n + 3
        rw [List.length_append, List.length_take]
        have := min_le_left n (EmbeddingsService.cleanedText s).length
        simp only [List.length_cons, List.length_nil]
        omega
      · rw [if_neg ht]
        show (EmbeddingsService.cleanedText s).length ≤ n + 3
        omega
  · by_cases hs : s = ""
    · subst hs
      intro c hc
      cases hc
    · simp only [EmbeddingsService.prepareTextForEmbedding]
      rw [if_neg hs]
      by_cases ht : n < (EmbeddingsService.cleanedText s).length
      · rw [if_pos ht]
        intro c hc hws
        rcases List.mem_append.mp hc with hc' | hc'
        · exact cleanedText_space (List.take_subset n _ hc') hws
        · have hdot : c = '.' := by simpa using hc'
          subst hdot
          exact absurd hws (by decide)
      · rw [if_neg ht]
        intro c hc hws
        exact cleanedText_space hc hws
  · by_cases hs : s = ""
    · subst hs
      simp [EmbeddingsService.prepareTextForEmbedding]
    · simp only [EmbeddingsService.prepareTextForEmbedding]
      rw [if_neg hs]
      by_cases ht : n < (EmbeddingsService.cleanedText s).length
      · rw [if_pos ht]
        show List.Chain' _ ((EmbeddingsService.cleanedText s).take n ++ _)
        rw [List.chain'_append]
        have htp := List.take_prefix n (EmbeddingsService.cleanedText s)
        refine ⟨ List.Chain'.prefix (cleanedText_chain s) htp, ?_, ?_⟩
        · rw [List.chain'_cons, List.chain'_cons]
          exact ⟨Or.inl (by decide), Or.inl (by decide),
            List.chain'_singleton _⟩
        · intro x _ y hy
          have hdot : y = '.' := by have := hy; simp at this; exact this.symm
          subst hdot
          exact Or.inr (by decide)
      · rw [if_neg ht]
        exact cleanedText_chain s
  · intro ht
    by_cases hs : s = ""
    · subst hs
      rw [show EmbeddingsService.cleanedText "" = [] from rfl,
        List.length_nil] at ht
      exact absurd ht (Nat.not_lt_zero n)
    · simp only [EmbeddingsService.prepareTextForEmbedding]
      rw [if_neg hs, if_pos ht]

/-- Witness for the amended C9: `"ab"` truncated at length `1` yields
`"a..."`, and a non-string input yields `""`. -/
theorem prepareTextForEmbedding_spec_witness :
    EmbeddingsService.prepareTextForEmbedding (some "ab") 1 = "a..." ∧
    EmbeddingsService.prepareTextForEmbedding none 1 = "" :=
  ⟨((prepareTextForEmbedding_spec "ab" 1).2.2.2.2.2 (by decide)).trans
      (by decide),
   (prepareTextForEmbedding_spec "ab" 1).1⟩

/-- Claim C9, counterexample: `prepareTextForEmbedding` does not strip
non-printable characters: the NUL control character (`'\x00'`, which is not
matched by `\s`) passes through unchanged. -/
theorem prepareTextForEmbedding_keeps_nonprintable :
    EmbeddingsService.prepareTextForEmbedding (some "a\x00b") 8192 =
      "a\x00b" ∧
    '\x00' ∈ "a\x00b".data ∧ '\x00'.toNat = 0 := by
  refine ⟨by decide, by decide, rfl⟩

/-- Claim C10: `countDocuments` is total (it returns a natural number, never an
error): in fallback mode it returns the length of the in-memory point list,
and when the underlying collection-info query fails it returns `0`. -/
theorem countDocuments_total (m : QdrantService.StoreMode) :
    (∀ ms, m = .fallback ms → QdrantService.countDocuments m = ms.length) ∧
    (∀ e, QdrantService.getCollectionInfo m = .error e →
      QdrantService.countDocuments m = 0) := by
  constructor
  · rintro ms rfl
    simp [QdrantService.countDocuments, QdrantService.getCollectionInfo]
  · intro e he
    simp [QdrantService.countDocuments, he]

/-- Witness for C10: the empty fallback store, and a failing networked
backend. -/
theorem countDocuments_total_witness :
    QdrantService.countDocuments (.fallback []) = ([] : List Point).length ∧
    QdrantService.countDocuments (.networked (.error "connection refused")) = 0 :=
  ⟨(countDocuments_total _).1 [] rfl,
   (countDocuments_total _).2 "connection refused" rfl⟩

/-- Claim C5: Ingesting the same document twice via `processAndStoreDocument`
calls the embedding provider at most once: starting from a cache miss, the
first ingestion succeeds, makes exactly one provider call and writes the
computed vector through to the cache; the second ingestion reads the vector
from the cache, succeeds, and makes no provider call. -/
theorem processAndStoreDocument_cache_shortcircuit (provider : Provider)
    (now₁ now₂ : String) (document : Document) (st : RAGState) (v : List ℝ)
    (hmiss : RedisService.getCachedEmbedding st.cache document.id = none)
    (hok : provider (EmbeddingsService.createEmbeddingText document) =
      .ok (some v)) :
    (RAGService.processAndStoreDocument provider now₁ document st).1 =
      .ok () ∧
    (RAGService.processAndStoreDocument provider now₁ document
      st).2.providerCalls = st.providerCalls + 1 ∧
    RedisService.getCachedEmbedding
      (RAGService.processAndStoreDocument provider now₁ document st).2.cache
      document.id = some v ∧
    (RAGService.processAndStoreDocument provider now₂ document
      (RAGService.processAndStoreDocument provider now₁ document st).2).1 =
      .ok () ∧
    (RAGService.processAndStoreDocument provider now₂ document
      (RAGService.processAndStoreDocument provider now₁ document
        st).2).2.providerCalls =
      (RAGService.processAndStoreDocument provider now₁ document
        st).2.providerCalls := by
  simp only [RedisService.getCachedEmbedding] at hmiss
  simp only [RAGService.processAndStoreDocument,
    RedisService.getCachedEmbedding, RedisService.cacheEmbedding, hmiss, hok,
    List.lookup_cons_self]
  exact ⟨trivial, trivial, trivial, trivial, trivial⟩

/-- Witness for C5: a concrete document ingested twice from the empty state
with a constant provider. -/
theorem processAndStoreDocument_cache_shortcircuit_witness :
    (RAGService.processAndStoreDocument (fun _ => .ok (some [(1 : ℝ)])) "n1"
      ⟨"a", "t", "c", "u", "p", "s", "m"⟩ ⟨[], [], 0, 0⟩).1 = .ok () ∧
    (RAGService.processAndStoreDocument (fun _ => .ok (some [(1 : ℝ)])) "n2"
      ⟨"a", "t", "c", "u", "p", "s", "m"⟩
      (RAGService.processAndStoreDocument (fun _ => .ok (some [(1 : ℝ)])) "n1"
        ⟨"a", "t", "c", "u", "p", "s", "m"⟩
        ⟨[], [], 0, 0⟩).2).2.providerCalls =
      (RAGService.processAndStoreDocument (fun _ => .ok (some [(1 : ℝ)])) "n1"
        ⟨"a", "t", "c", "u", "p", "s", "m"⟩
        ⟨[], [], 0, 0⟩).2.providerCalls :=
  ⟨(processAndStoreDocument_cache_shortcircuit (fun _ => .ok (some [(1 : ℝ)]))
      "n1" "n2" ⟨"a", "t", "c", "u", "p", "s", "m"⟩ ⟨[], [], 0, 0⟩ [(1 : ℝ)]
      rfl rfl).1,
   (processAndStoreDocument_cache_shortcircuit (fun _ => .ok (some [(1 : ℝ)]))
      "n1" "n2" ⟨"a", "t", "c", "u", "p", "s", "m"⟩ ⟨[], [], 0, 0⟩ [(1 : ℝ)]
      rfl rfl).2.2.2.2⟩

/-- Claim C6: Batch ingestion does not abort on a failing document: it always
returns the count of successfully embedded documents, the successes are
exactly the non-failing documents in order (a subsequence of the batch), the
embedding phase performs no store access, and the store upsert is a single
`storeDocuments` batch call over the successes (no call when every document
failed). -/
theorem processAndStoreDocuments_spec (provider : Provider) (now : String)
    (documents : List Document) (st : RAGState) :
    (RAGService.processAndStoreDocuments provider now documents st).1 =
      .ok (RAGService.embedLoop provider documents [] st).1.length ∧
    List.Sublist
      ((RAGService.embedLoop provider documents [] st).1.map
        EmbeddedDocument.toDocument) documents ∧
    (RAGService.embedLoop provider documents [] st).2.memoryStore =
      st.memoryStore ∧
    (RAGService.embedLoop provider documents [] st).2.storeCalls =
      st.storeCalls ∧
    (RAGService.processAndStoreDocuments provider now documents
      st).2.memoryStore =
      (if (RAGService.embedLoop provider documents [] st).1.isEmpty then
        st.memoryStore
      else
        QdrantService.storeDocuments now
          (RAGService.embedLoop provider documents [] st).1 st.memoryStore) ∧
    (RAGService.processAndStoreDocuments provider now documents
      st).2.storeCalls =
      st.storeCalls +
        (if (RAGService.embedLoop provider documents [] st).1.isEmpty then 0
        else 1) := by
  refine ⟨?_, embedLoop_sublist provider documents st,
    (embedLoop_frame provider documents [] st).1,
    (embedLoop_frame provider documents [] st).2, ?_, ?_⟩
  · simp only [RAGService.processAndStoreDocuments]
    split <;> rfl
  · simp only [RAGService.processAndStoreDocuments]
    split
    · exact (embedLoop_frame provider documents [] st).1
    · simp [(embedLoop_frame provider documents [] st).1]
  · simp only [RAGService.processAndStoreDocuments]
    split
    · simp [(embedLoop_frame provider documents [] st).2]
    · simp [(embedLoop_frame provider documents [] st).2]

/-- Concrete batch-partial-failure scenario from the spec: a batch of five
documents where the third fails to embed yields a count of `4`, and the
store holds exactly the other four documents, in order. -/
theorem processAndStoreDocuments_partial_failure :
    (RAGService.processAndStoreDocuments
      (fun t => if t == "Title: t3" then .error "embedding failed"
        else .ok (some [(1 : ℝ)]))
      "now"
      [⟨"d1", "t1", "", "", "", "", ""⟩, ⟨"d2", "t2", "", "", "", "", ""⟩,
       ⟨"d3", "t3", "", "", "", "", ""⟩, ⟨"d4", "t4", "", "", "", "", ""⟩,
       ⟨"d5", "t5", "", "", "", "", ""⟩]
      ⟨[], [], 0, 0⟩).1 = .ok 4 ∧
    ((RAGService.processAndStoreDocuments
      (fun t => if t == "Title: t3" then .error "embedding failed"
        else .ok (some [(1 : ℝ)]))
      "now"
      [⟨"d1", "t1", "", "", "", "", ""⟩, ⟨"d2", "t2", "", "", "", "", ""⟩,
       ⟨"d3", "t3", "", "", "", "", ""⟩, ⟨"d4", "t4", "", "", "", "", ""⟩,
       ⟨"d5", "t5", "", "", "", "", ""⟩]
      ⟨[], [], 0, 0⟩).2.memoryStore.map Point.id) = ["d1", "d2", "d4", "d5"] := by
  exact ⟨rfl, rfl⟩

/-- Claim C7: If the query embedding cannot be obtained, retrieval fails: a
provider error propagates to the caller unchanged, and a provider call that
yields no vector produces the fixed error — in both cases no result list is
returned. -/
theorem retrieveRelevantDocuments_error (provider : Provider)
    (query : String) (topK : ℕ) (t : ℝ) (st : RAGState) :
    (∀ e, provider query = .error e →
      (RAGService.retrieveRelevantDocuments provider query topK t st).1 =
        .error e) ∧
    (provider query = .ok none →
      (RAGService.retrieveRelevantDocuments provider query topK t st).1 =
        .error "Failed to generate query embedding") := by
  constructor
  · intro e he
    simp [RAGService.retrieveRelevantDocuments, he]
  · intro he
    simp [RAGService.retrieveRelevantDocuments, he]

/-- Witness for C7: a provider that throws, and one that fulfills with no
vector. -/
theorem retrieveRelevantDocuments_error_witness :
    (RAGService.retrieveRelevantDocuments (fun _ => .error "boom") "q" 5 0
      ⟨[], [], 0, 0⟩).1 = .error "boom" ∧
    (RAGService.retrieveRelevantDocuments (fun _ => .ok none) "q" 5 0
      ⟨[], [], 0, 0⟩).1 = .error "Failed to generate query embedding" :=
  ⟨(retrieveRelevantDocuments_error (fun _ => .error "boom") "q" 5 0
      ⟨[], [], 0, 0⟩).1 "boom" rfl,
   (retrieveRelevantDocuments_error (fun _ => .ok none) "q" 5 0
      ⟨[], [], 0, 0⟩).2 rfl⟩

/-- Claim C8: Retrieval is read-only with respect to storage: for every query,
`topK` and threshold, the vector-store state and the embedding-cache state
after `retrieveRelevantDocuments` equal the states before it (in particular
the query embedding is never written to the cache). -/
theorem retrieveRelevantDocuments_readonly (provider : Provider)
    (query : String) (topK : ℕ) (t : ℝ) (st : RAGState) :
    (RAGService.retrieveRelevantDocuments provider query topK t
      st).2.memoryStore = st.memoryStore ∧
    (RAGService.retrieveRelevantDocuments provider query topK t st).2.cache =
      st.cache := by
  unfold RAGService.retrieveRelevantDocuments
  rcases provider query with e | v
  · exact ⟨rfl, rfl⟩
  · rcases v with - | v <;> exact ⟨rfl, rfl⟩

end RAGBackend
